import Mathlib

/-!
Verification of the go-huggingface model-loading and tokenization core.

This file gives a shallow embedding, in Lean 4, of the parts of the
repository that the frozen claims C1..C10 talk about:

* the GGUF metadata / tensor-info binary parser (`readString`, `readValue`,
  `readArray`, `readKeyValue`, `readTensorInfo`) and the block dequantizers
  (`float16ToFloat32`, `dequantQ4_0`, ..., `getDequantFunc`);
* the safetensors reader (`ReadTensor`), model iteration (`IterTensors`,
  `sortTensorsByOffset`) and the two `NumElements` implementations;
* the HuggingFace tokenizer pipeline (byte-level alphabet, byte-level
  pre-tokenizer, BPE and WordPiece sub-word models, `EncodeWithSpans`);
* the SentencePiece adapter (`Encode` / `EncodeWithSpans`).

Go strings are modelled as lists of runes (code points) for the tokenizer,
where byte positions matter and are computed with an explicit UTF-8 length
function, and as lists of bytes for the binary formats.  Machine integers
are modelled as `Nat`/`Int` with explicit wrap-around where the Go code can
overflow.  Fallible Go functions are modelled with `Except`/`Option`.
-/

namespace Gguf

/-! ### Binary reading helpers (file `gguf` package, reader file)

A GGUF stream is a list of bytes (each a `Nat` below 256).  `binary.Read`
of a fixed-width little-endian unsigned integer is modelled by `readUintN`.
-/

/-- Little-endian value of a byte list (first byte is least significant). -/
def leNat : List Nat → Nat
  | [] => 0
  | b :: rest => b + 256 * leNat rest

/-- Little-endian encoding of `v` on `k` bytes (used to build test streams). -/
def leBytes : Nat → Nat → List Nat
  | 0, _ => []
  | k + 1, v => v % 256 :: leBytes k (v / 256)

/-- Split off the first `n` bytes of a stream, failing if it is too short.
Models a full `binary.Read` / `io.ReadFull` of `n` bytes. -/
def takeBytes (n : Nat) (s : List Nat) : Option (List Nat × List Nat) :=
  if n ≤ s.length then some (s.take n, s.drop n) else none

/-- Read a `w`-byte little-endian unsigned integer. -/
def readUintN (w : Nat) (s : List Nat) : Option (Nat × List Nat) :=
  (takeBytes w s).map (fun p => (leNat p.1, p.2))

/-- Reinterpret a `w`-byte unsigned value as a signed (two's complement) one. -/
def toSigned (w : Nat) (v : Nat) : Int :=
  if v < 2 ^ (8 * w - 1) then (v : Int) else (v : Int) - 2 ^ (8 * w)

/-- `readString` reads a GGUF string: uint64 length prefix followed by that
many bytes, rejecting lengths above the 1 MiB sanity bound. -/
def readString (s : List Nat) : Except String (List Nat × List Nat) :=
  match readUintN 8 s with
  | none => .error "read string length"
  | some (length, rest) =>
    if 2 ^ 20 < length then .error "string length exceeds 1MB limit"
    else
      match takeBytes length rest with
      | none => .error "read string data"
      | some (buf, rest2) => .ok (buf, rest2)

/-- The dynamic value stored in a GGUF `Value` (Go: `Value{data any}`).
One constructor per Go dynamic type that `readValue`/`readArray` produce. -/
inductive GValue where
  | gUint8 (v : Nat)
  | gInt8 (v : Int)
  | gUint16 (v : Nat)
  | gInt16 (v : Int)
  | gUint32 (v : Nat)
  | gInt32 (v : Int)
  | gFloat32 (bits : Nat)
  | gBool (v : Bool)
  | gString (v : List Nat)
  | gUint64 (v : Nat)
  | gInt64 (v : Int)
  | gFloat64 (bits : Nat)
  | gArrUint8 (v : List Nat)
  | gArrInt8 (v : List Int)
  | gArrUint16 (v : List Nat)
  | gArrInt16 (v : List Int)
  | gArrUint32 (v : List Nat)
  | gArrInt32 (v : List Int)
  | gArrFloat32 (v : List Nat)
  | gArrUint64 (v : List Nat)
  | gArrInt64 (v : List Int)
  | gArrFloat64 (v : List Nat)
  | gArrBool (v : List Bool)
  | gArrString (v : List (List Nat))
deriving DecidableEq

/-- Read `count` unsigned `w`-byte values (Go generic `readArrayOf[T]`). -/
def readUintArrayOf (w : Nat) : Nat → List Nat → Except String (List Nat × List Nat)
  | 0, s => .ok ([], s)
  | count + 1, s =>
    match readUintN w s with
    | none => .error "read array element"
    | some (v, rest) =>
      match readUintArrayOf w count rest with
      | .error e => .error e
      | .ok (vs, rest2) => .ok (v :: vs, rest2)

/-- Read `count` signed `w`-byte values (Go generic `readArrayOf[T]`). -/
def readIntArrayOf (w : Nat) : Nat → List Nat → Except String (List Nat × List Nat × List Int)
  | 0, s => .ok ([], s, [])
  | count + 1, s =>
    match readUintN w s with
    | none => .error "read array element"
    | some (v, rest) =>
      match readIntArrayOf w count rest with
      | .error e => .error e
      | .ok (vs, rest2, sv) => .ok (v :: vs, rest2, toSigned w v :: sv)

/-- `readBoolArray` reads `count` bools, each stored as one byte. -/
def readBoolArray : Nat → List Nat → Except String (List Bool × List Nat)
  | 0, s => .ok ([], s)
  | count + 1, s =>
    match readUintN 1 s with
    | none => .error "read bool array element"
    | some (b, rest) =>
      match readBoolArray count rest with
      | .error e => .error e
      | .ok (vs, rest2) => .ok ((b != 0) :: vs, rest2)

/-- `readStringArray` reads `count` GGUF strings. -/
def readStringArray : Nat → List Nat → Except String (List (List Nat) × List Nat)
  | 0, s => .ok ([], s)
  | count + 1, s =>
    match readString s with
    | .error e => .error e
    | .ok (v, rest) =>
      match readStringArray count rest with
      | .error e => .error e
      | .ok (vs, rest2) => .ok (v :: vs, rest2)

/-- The GGUF value-type tags (`ggufValueType` constants in the source). -/
def valueTypeUint8 : Nat := 0
def valueTypeInt8 : Nat := 1
def valueTypeUint16 : Nat := 2
def valueTypeInt16 : Nat := 3
def valueTypeUint32 : Nat := 4
def valueTypeInt32 : Nat := 5
def valueTypeFloat32 : Nat := 6
def valueTypeBool : Nat := 7
def valueTypeString : Nat := 8
def valueTypeArray : Nat := 9
def valueTypeUint64 : Nat := 10
def valueTypeInt64 : Nat := 11
def valueTypeFloat64 : Nat := 12

/-- `readArray` reads a GGUF typed array: uint32 element type, uint64 count,
then the elements.  The element-type switch has cases for every leaf type
but none for `valueTypeArray`; that tag falls into the default branch. -/
def readArray (s : List Nat) : Except String (GValue × List Nat) :=
  match readUintN 4 s with
  | none => .error "read array element type"
  | some (elemType, rest) =>
    match readUintN 8 rest with
    | none => .error "read array count"
    | some (count, rest2) =>
      if elemType = valueTypeUint8 then
        match readUintArrayOf 1 count rest2 with
        | .error e => .error e
        | .ok (vs, r) => .ok (.gArrUint8 vs, r)
      else if elemType = valueTypeInt8 then
        match readIntArrayOf 1 count rest2 with
        | .error e => .error e
        | .ok (_, r, sv) => .ok (.gArrInt8 sv, r)
      else if elemType = valueTypeUint16 then
        match readUintArrayOf 2 count rest2 with
        | .error e => .error e
        | .ok (vs, r) => .ok (.gArrUint16 vs, r)
      else if elemType = valueTypeInt16 then
        match readIntArrayOf 2 count rest2 with
        | .error e => .error e
        | .ok (_, r, sv) => .ok (.gArrInt16 sv, r)
      else if elemType = valueTypeUint32 then
        match readUintArrayOf 4 count rest2 with
        | .error e => .error e
        | .ok (vs, r) => .ok (.gArrUint32 vs, r)
      else if elemType = valueTypeInt32 then
        match readIntArrayOf 4 count rest2 with
        | .error e => .error e
        | .ok (_, r, sv) => .ok (.gArrInt32 sv, r)
      else if elemType = valueTypeFloat32 then
        match readUintArrayOf 4 count rest2 with
        | .error e => .error e
        | .ok (vs, r) => .ok (.gArrFloat32 vs, r)
      else if elemType = valueTypeUint64 then
        match readUintArrayOf 8 count rest2 with
        | .error e => .error e
        | .ok (vs, r) => .ok (.gArrUint64 vs, r)
      else if elemType = valueTypeInt64 then
        match readIntArrayOf 8 count rest2 with
        | .error e => .error e
        | .ok (_, r, sv) => .ok (.gArrInt64 sv, r)
      else if elemType = valueTypeFloat64 then
        match readUintArrayOf 8 count rest2 with
        | .error e => .error e
        | .ok (vs, r) => .ok (.gArrFloat64 vs, r)
      else if elemType = valueTypeBool then
        match readBoolArray count rest2 with
        | .error e => .error e
        | .ok (vs, r) => .ok (.gArrBool vs, r)
      else if elemType = valueTypeString then
        match readStringArray count rest2 with
        | .error e => .error e
        | .ok (vs, r) => .ok (.gArrString vs, r)
      else .error "unsupported array element type"

/-- `readValue` reads a GGUF value of the given type tag; unknown tags error. -/
def readValue (vtype : Nat) (s : List Nat) : Except String (GValue × List Nat) :=
  if vtype = valueTypeUint8 then
    match readUintN 1 s with
    | none => .error "read value"
    | some (v, r) => .ok (.gUint8 v, r)
  else if vtype = valueTypeInt8 then
    match readUintN 1 s with
    | none => .error "read value"
    | some (v, r) => .ok (.gInt8 (toSigned 1 v), r)
  else if vtype = valueTypeUint16 then
    match readUintN 2 s with
    | none => .error "read value"
    | some (v, r) => .ok (.gUint16 v, r)
  else if vtype = valueTypeInt16 then
    match readUintN 2 s with
    | none => .error "read value"
    | some (v, r) => .ok (.gInt16 (toSigned 2 v), r)
  else if vtype = valueTypeUint32 then
    match readUintN 4 s with
    | none => .error "read value"
    | some (v, r) => .ok (.gUint32 v, r)
  else if vtype = valueTypeInt32 then
    match readUintN 4 s with
    | none => .error "read value"
    | some (v, r) => .ok (.gInt32 (toSigned 4 v), r)
  else if vtype = valueTypeFloat32 then
    match readUintN 4 s with
    | none => .error "read value"
    | some (v, r) => .ok (.gFloat32 v, r)
  else if vtype = valueTypeBool then
    match readUintN 1 s with
    | none => .error "read value"
    | some (v, r) => .ok (.gBool (v != 0), r)
  else if vtype = valueTypeString then
    match readString s with
    | .error e => .error e
    | .ok (v, r) => .ok (.gString v, r)
  else if vtype = valueTypeUint64 then
    match readUintN 8 s with
    | none => .error "read value"
    | some (v, r) => .ok (.gUint64 v, r)
  else if vtype = valueTypeInt64 then
    match readUintN 8 s with
    | none => .error "read value"
    | some (v, r) => .ok (.gInt64 (toSigned 8 v), r)
  else if vtype = valueTypeFloat64 then
    match readUintN 8 s with
    | none => .error "read value"
    | some (v, r) => .ok (.gFloat64 v, r)
  else if vtype = valueTypeArray then readArray s
  else .error "unknown value type"

/-- A GGUF metadata key-value pair. -/
structure GKeyValue where
  key : List Nat
  value : GValue
deriving DecidableEq

/-- `readKeyValue` reads a single key-value pair: string key, uint32 type
tag, then the value. -/
def readKeyValue (s : List Nat) : Except String (GKeyValue × List Nat) :=
  match readString s with
  | .error e => .error e
  | .ok (key, rest) =>
    match readUintN 4 rest with
    | none => .error "read value type"
    | some (typeTag, rest2) =>
      match readValue typeTag rest2 with
      | .error e => .error e
      | .ok (val, rest3) => .ok (⟨key, val⟩, rest3)

/-- Parsed information about a single tensor (Go struct `TensorInfo`).
`shape` is in GGUF native order (innermost first); `ttype` is the raw
uint32 tensor-type tag, which is not validated at parse time. -/
structure GTensorInfo where
  name : List Nat
  shape : List Nat
  ttype : Nat
  offset : Nat
deriving DecidableEq

/-- `readTensorInfo` reads one tensor-info entry: string name, uint32 dim
count, that many uint64 dims, uint32 tensor type, uint64 offset.  The
tensor-type tag is stored as read, with no validation. -/
def readDims : Nat → List Nat → Except String (List Nat × List Nat)
  | 0, s => .ok ([], s)
  | n + 1, s =>
    match readUintN 8 s with
    | none => .error "read tensor dim"
    | some (d, rest) =>
      match readDims n rest with
      | .error e => .error e
      | .ok (ds, rest2) => .ok (d :: ds, rest2)

def readTensorInfo (s : List Nat) : Except String (GTensorInfo × List Nat) :=
  match readString s with
  | .error e => .error e
  | .ok (name, rest) =>
    match readUintN 4 rest with
    | none => .error "read tensor dims count"
    | some (nDims, rest2) =>
      match readDims nDims rest2 with
      | .error e => .error e
      | .ok (shape, rest3) =>
        match readUintN 4 rest3 with
        | none => .error "read tensor type"
        | some (ttype, rest4) =>
          match readUintN 8 rest4 with
          | none => .error "read tensor offset"
          | some (offset, rest5) => .ok (⟨name, shape, ttype, offset⟩, rest5)

/-- Byte-level encoder for a tensor-info entry, used to state that parsing
inverts the wire format for every tensor-type tag. -/
def encodeTensorInfo (name : List Nat) (dims : List Nat) (ttype offset : Nat) : List Nat :=
  leBytes 8 name.length ++ name ++ leBytes 4 dims.length ++ dims.flatMap (leBytes 8) ++
    leBytes 4 ttype ++ leBytes 8 offset

end Gguf

namespace Gguf

/-! ### Tensor types and dequantization (gguf metadata and dequant files)

Tensor types are the raw uint32 tags; the named constants below mirror the
Go `TensorType` constants.  Dequantizers map a block's bytes to its
`blockSize` float32 values.  Float32 arithmetic is modelled with exact
rationals: every value produced here is a small integer multiple of a
half-precision value, and such products and sums are exact in IEEE-754
single precision, so the rational model agrees with the float32 code on
every finite input. -/

def TensorTypeF32 : Nat := 0
def TensorTypeF16 : Nat := 1
def TensorTypeQ4_0 : Nat := 2
def TensorTypeQ4_1 : Nat := 3
def TensorTypeQ5_0 : Nat := 6
def TensorTypeQ5_1 : Nat := 7
def TensorTypeQ8_0 : Nat := 8
def TensorTypeQ8_1 : Nat := 9
def TensorTypeQ2_K : Nat := 10
def TensorTypeQ3_K : Nat := 11
def TensorTypeQ4_K : Nat := 12
def TensorTypeQ5_K : Nat := 13
def TensorTypeQ6_K : Nat := 14
def TensorTypeQ8_K : Nat := 15
def TensorTypeIQ4_NL : Nat := 20
def TensorTypeI8 : Nat := 24
def TensorTypeI16 : Nat := 25
def TensorTypeI32 : Nat := 26
def TensorTypeI64 : Nat := 27
def TensorTypeF64 : Nat := 28
def TensorTypeBF16 : Nat := 30
def TensorTypeMXFP4 : Nat := 39

/-- `NumElements` of a Go `TensorInfo`: the product of the dims (uint64
arithmetic, hence the wrap at `2^64`), except that the empty shape is
special-cased to 0 by the source. -/
def GTensorInfo.NumElements (ti : GTensorInfo) : Nat :=
  if ti.shape = [] then 0
  else ti.shape.foldl (fun n d => (n * d) % 18446744073709551616) 1

/-- The subnormal-normalization loop of `float16ToFloat32`
(`for mant&0x400 == 0 { mant <<= 1; exp-- }`).  The mantissa is a nonzero
10-bit value, so at most 10 iterations run; fuel 11 is always enough.
`exp` is carried as an `Int` because the Go `uint32` decrement can wrap;
the wrap is applied when the exponent field is assembled. -/
def f16NormalizeLoop : Nat → Nat → Int → Nat × Int
  | 0, mant, exp => (mant, exp)
  | fuel + 1, mant, exp =>
    if mant &&& 1024 = 0 then f16NormalizeLoop fuel (mant <<< 1) (exp - 1)
    else (mant, exp)

/-- `float16ToFloat32` converts half-precision bits to single-precision
bits, with subnormal and Inf/NaN handling, exactly as the source does. -/
def float16ToFloat32 (bits : Nat) : Nat :=
  let sign := (bits >>> 15) &&& 1
  let exp := (bits >>> 10) &&& 31
  let mant := bits &&& 1023
  if exp = 0 then
    if mant = 0 then sign <<< 31
    else
      let me := f16NormalizeLoop 11 mant 1
      let mant1 := me.1 &&& 1023
      let e32 := ((me.2 + 127 - 15) % (4294967296 : Int)).toNat
      (sign <<< 31) ||| ((e32 <<< 23) % 4294967296) ||| (mant1 <<< 13)
  else if exp = 31 then (sign <<< 31) ||| (255 <<< 23) ||| (mant <<< 13)
  else (sign <<< 31) ||| ((exp + 127 - 15) <<< 23) ||| (mant <<< 13)

/-- The real value of an IEEE-754 single-precision bit pattern, as an exact
rational.  Infinities and NaNs (exponent 255) are outside the rational
model and are mapped to 0; no claim below evaluates the conversion there. -/
def f32BitsToRat (bits : Nat) : ℚ :=
  let s := (bits >>> 31) &&& 1
  let e := (bits >>> 23) &&& 255
  let m := bits &&& 8388607
  let sign : ℚ := if s = 1 then -1 else 1
  if e = 0 then sign * (m : ℚ) / 2 ^ 149
  else if e = 255 then 0
  else if 150 ≤ e then sign * ((8388608 + m : Nat) : ℚ) * 2 ^ (e - 150)
  else sign * ((8388608 + m : Nat) : ℚ) / 2 ^ (150 - e)

/-- Value of a half-precision bit pattern after the code's `float16ToFloat32`
conversion (the scale path every dequantizer uses). -/
def f16val (bits : Nat) : ℚ := f32BitsToRat (float16ToFloat32 bits)

/-- `dequantQ8_0` (34 bytes → 32 values): f16 scale then 32 int8 quants,
`dst[j] = scale * int8(src[2+j])`. -/
def dequantQ8_0 (src : List Nat) : List ℚ :=
  let d := f16val (src.getD 0 0 + 256 * src.getD 1 0)
  (List.range 32).map (fun j => d * ((toSigned 1 (src.getD (2 + j) 0) : Int) : ℚ))

/-- `dequantQ4_0` (18 bytes → 32 values): f16 scale then 16 nibble bytes
(`qs := src[2:]`, written below as the index offset `2 + j`); low nibbles
fill `dst[0..16)`, high nibbles fill `dst[16..32)`, each offset by −8. -/
def dequantQ4_0 (src : List Nat) : List ℚ :=
  let d := f16val (src.getD 0 0 + 256 * src.getD 1 0)
  (List.range 16).map (fun j => (((src.getD (2 + j) 0 &&& 15 : Nat) : Int) - 8 : Int) * d) ++
    (List.range 16).map (fun j => (((src.getD (2 + j) 0 >>> 4 : Nat) : Int) - 8 : Int) * d)

/-- `dequantQ4_1` (20 bytes → 32 values): f16 scale, f16 min, 16 nibble
bytes (`qs := src[4:]`); `dst = nibble * scale + min`, no offset. -/
def dequantQ4_1 (src : List Nat) : List ℚ :=
  let d := f16val (src.getD 0 0 + 256 * src.getD 1 0)
  let m := f16val (src.getD 2 0 + 256 * src.getD 3 0)
  (List.range 16).map (fun j => ((src.getD (4 + j) 0 &&& 15 : Nat) : ℚ) * d + m) ++
    (List.range 16).map (fun j => ((src.getD (4 + j) 0 >>> 4 : Nat) : ℚ) * d + m)

/-- `dequantQ5_0` (22 bytes → 32 values): f16 scale, 32-bit `qh`
(`src[2:6]`), 16 nibble bytes (`qs := src[6:]`); the fifth bit comes from
`qh` and the composed 5-bit value is offset by −16. -/
def dequantQ5_0 (src : List Nat) : List ℚ :=
  let d := f16val (src.getD 0 0 + 256 * src.getD 1 0)
  let qh := src.getD 2 0 + 256 * src.getD 3 0 + 65536 * src.getD 4 0 + 16777216 * src.getD 5 0
  (List.range 16).map (fun j =>
      let xh0 := ((qh >>> j) <<< 4) &&& 16
      ((((src.getD (6 + j) 0 &&& 15) ||| xh0 : Nat) : Int) - 16 : Int) * d) ++
    (List.range 16).map (fun j =>
      let xh1 := (qh >>> (j + 12)) &&& 16
      ((((src.getD (6 + j) 0 >>> 4) ||| xh1 : Nat) : Int) - 16 : Int) * d)

/-- `dequantQ5_1` (24 bytes → 32 values): like Q5_0 but with an f16 min
(`qh` at `src[4:8]`, `qs := src[8:]`) and no offset. -/
def dequantQ5_1 (src : List Nat) : List ℚ :=
  let d := f16val (src.getD 0 0 + 256 * src.getD 1 0)
  let m := f16val (src.getD 2 0 + 256 * src.getD 3 0)
  let qh := src.getD 4 0 + 256 * src.getD 5 0 + 65536 * src.getD 6 0 + 16777216 * src.getD 7 0
  (List.range 16).map (fun j =>
      let xh0 := ((qh >>> j) <<< 4) &&& 16
      (((src.getD (8 + j) 0 &&& 15) ||| xh0 : Nat) : ℚ) * d + m) ++
    (List.range 16).map (fun j =>
      let xh1 := (qh >>> (j + 12)) &&& 16
      (((src.getD (8 + j) 0 >>> 4) ||| xh1 : Nat) : ℚ) * d + m)

/-- `dequantQ2_K` (84 bytes → 256 values): 16 scale/min bytes (`src[0:16]`),
64 quant bytes (`qs := src[16:80]`), f16 `d` and f16 `dmin`.  The Go loop
runs two 128-value halves, four shift groups each, two 16-value chunks per
group, with a running scale index `is = 8*half + 2*group (+1)`. -/
def dequantQ2_K (src : List Nat) : List ℚ :=
  let d := f16val (src.getD 80 0 + 256 * src.getD 81 0)
  let dmin := f16val (src.getD 82 0 + 256 * src.getD 83 0)
  (List.range 2).flatMap (fun h =>
    (List.range 4).flatMap (fun g =>
      let shift := 2 * g
      let sc1 := src.getD (8 * h + 2 * g) 0
      let sc2 := src.getD (8 * h + 2 * g + 1) 0
      (List.range 16).map (fun l =>
          d * ((sc1 &&& 15 : Nat) : ℚ) * (((src.getD (16 + 32 * h + l) 0 >>> shift) &&& 3 : Nat) : ℚ) -
            dmin * ((sc1 >>> 4 : Nat) : ℚ)) ++
        (List.range 16).map (fun l =>
          d * ((sc2 &&& 15 : Nat) : ℚ) * (((src.getD (16 + 32 * h + 16 + l) 0 >>> shift) &&& 3 : Nat) : ℚ) -
            dmin * ((sc2 >>> 4 : Nat) : ℚ))))

/-- The Q3_K 6-bit scale unpacking: the 12 scale bytes (`src[96:108]`) are
read as three uint32 words and remixed into four words `aux[0..4)` whose
bytes, read as int8, are the 16 sub-block scales. -/
def q3kScales (src : List Nat) : Nat → Int :=
  let w := fun i =>
    src.getD (96 + 4 * i) 0 + 256 * src.getD (97 + 4 * i) 0 +
      65536 * src.getD (98 + 4 * i) 0 + 16777216 * src.getD (99 + 4 * i) 0
  let kmask1 : Nat := 0x03030303
  let kmask2 : Nat := 0x0f0f0f0f
  let tmp := w 2
  let aux0 := (w 0 &&& kmask2) ||| (((tmp >>> 0) &&& kmask1) <<< 4)
  let aux1 := (w 1 &&& kmask2) ||| (((tmp >>> 2) &&& kmask1) <<< 4)
  let aux2 := ((w 0 >>> 4) &&& kmask2) ||| (((tmp >>> 4) &&& kmask1) <<< 4)
  let aux3 := ((w 1 >>> 4) &&& kmask2) ||| (((tmp >>> 6) &&& kmask1) <<< 4)
  fun i =>
    let aux := if i / 4 = 0 then aux0 else if i / 4 = 1 then aux1 else if i / 4 = 2 then aux2 else aux3
    toSigned 1 ((aux >>> (8 * (i % 4))) &&& 255)

/-- `dequantQ3_K` (110 bytes → 256 values): 32 high-bit-mask bytes
(`hmask := src[0:32]`), 64 quant bytes (`qs := src[32:96]`), packed 6-bit
scales, f16 `d`.  The effective quant is the 2-bit value minus 4 when the
high bit is absent; the high-bit selector `m` doubles every inner group. -/
def dequantQ3_K (src : List Nat) : List ℚ :=
  let dAll := f16val (src.getD 108 0 + 256 * src.getD 109 0)
  let scales := q3kScales src
  (List.range 2).flatMap (fun h =>
    (List.range 4).flatMap (fun g =>
      let shift := 2 * g
      let m : Nat := 1 <<< (4 * h + g)
      let dl1 := dAll * ((scales (8 * h + 2 * g) - 32 : Int) : ℚ)
      let dl2 := dAll * ((scales (8 * h + 2 * g + 1) - 32 : Int) : ℚ)
      (List.range 16).map (fun l =>
          let q0 : Int := ((src.getD (32 + 32 * h + l) 0 >>> shift) &&& 3 : Nat)
          let q : Int := if src.getD l 0 &&& m = 0 then q0 - 4 else q0
          dl1 * (q : ℚ)) ++
        (List.range 16).map (fun l =>
          let q0 : Int := ((src.getD (32 + 32 * h + 16 + l) 0 >>> shift) &&& 3 : Nat)
          let q : Int := if src.getD (16 + l) 0 &&& m = 0 then q0 - 4 else q0
          dl2 * (q : ℚ))))

/-- `getScaleMinK4` extracts the 6-bit scale and min for sub-block `j` from
the 12-byte packed scales array (given as a lookup into the block). -/
def getScaleMinK4 (j : Nat) (scales : Nat → Nat) : Nat × Nat :=
  if j < 4 then (scales j &&& 63, scales (j + 4) &&& 63)
  else
    ((scales (j + 4) &&& 15) ||| ((scales (j - 4) >>> 6) <<< 4),
      (scales (j + 4) >>> 4) ||| ((scales j >>> 6) <<< 4))

/-- `dequantQ4_K` (144 bytes → 256 values): f16 `d`, f16 `dmin`, 12 packed
scale bytes (`scales := src[4:16]`), 128 nibble bytes (`qs := src[16:]`).
Four 64-value groups, each split into a low-nibble and a high-nibble run. -/
def dequantQ4_K (src : List Nat) : List ℚ :=
  let d := f16val (src.getD 0 0 + 256 * src.getD 1 0)
  let dmin := f16val (src.getD 2 0 + 256 * src.getD 3 0)
  let scales := fun i => src.getD (4 + i) 0
  (List.range 4).flatMap (fun g =>
    let sm1 := getScaleMinK4 (2 * g) scales
    let sm2 := getScaleMinK4 (2 * g + 1) scales
    let d1 := d * (sm1.1 : ℚ)
    let min1 := dmin * (sm1.2 : ℚ)
    let d2 := d * (sm2.1 : ℚ)
    let min2 := dmin * (sm2.2 : ℚ)
    (List.range 32).map (fun l => d1 * ((src.getD (16 + 32 * g + l) 0 &&& 15 : Nat) : ℚ) - min1) ++
      (List.range 32).map (fun l => d2 * ((src.getD (16 + 32 * g + l) 0 >>> 4 : Nat) : ℚ) - min2))

/-- `dequantQ5_K` (176 bytes → 256 values): like Q4_K plus a 32-byte `qh`
(`src[16:48]`, `qs := src[48:]`); the fifth bit is selected by the rotating
masks `u1 = 2^(2g)` and `u2 = 2^(2g+1)`. -/
def dequantQ5_K (src : List Nat) : List ℚ :=
  let d := f16val (src.getD 0 0 + 256 * src.getD 1 0)
  let dmin := f16val (src.getD 2 0 + 256 * src.getD 3 0)
  let scales := fun i => src.getD (4 + i) 0
  (List.range 4).flatMap (fun g =>
    let sm1 := getScaleMinK4 (2 * g) scales
    let sm2 := getScaleMinK4 (2 * g + 1) scales
    let d1 := d * (sm1.1 : ℚ)
    let min1 := dmin * (sm1.2 : ℚ)
    let d2 := d * (sm2.1 : ℚ)
    let min2 := dmin * (sm2.2 : ℚ)
    let u1 : Nat := 1 <<< (2 * g)
    let u2 : Nat := 2 <<< (2 * g)
    (List.range 32).map (fun l =>
        let hbit : Nat := if src.getD (16 + l) 0 &&& u1 != 0 then 16 else 0
        d1 * (((src.getD (48 + 32 * g + l) 0 &&& 15) + hbit : Nat) : ℚ) - min1) ++
      (List.range 32).map (fun l =>
        let hbit : Nat := if src.getD (16 + l) 0 &&& u2 != 0 then 16 else 0
        d2 * (((src.getD (48 + 32 * g + l) 0 >>> 4) + hbit : Nat) : ℚ) - min2))

/-- `dequantQ6_K` (210 bytes → 256 values): 128 low-nibble bytes
(`ql := src[0:128]`), 64 high-bit bytes (`qh := src[128:192]`), 16 int8
sub-block scales (`sc := src[192:208]`), f16 `d`.  Each half writes four
interleaved 32-value chunks. -/
def dequantQ6_K (src : List Nat) : List ℚ :=
  let d := f16val (src.getD 208 0 + 256 * src.getD 209 0)
  (List.range 2).flatMap (fun h =>
    (List.range 4).flatMap (fun k =>
      (List.range 32).map (fun l =>
        let is := l / 16
        let ql := fun i => src.getD (64 * h + i) 0
        let qh := src.getD (128 + 32 * h + l) 0
        let q : Int :=
          if k = 0 then toSigned 1 ((ql l &&& 15) ||| (((qh >>> 0) &&& 3) <<< 4)) - 32
          else if k = 1 then toSigned 1 ((ql (l + 32) &&& 15) ||| (((qh >>> 2) &&& 3) <<< 4)) - 32
          else if k = 2 then toSigned 1 ((ql l >>> 4) ||| (((qh >>> 4) &&& 3) <<< 4)) - 32
          else toSigned 1 ((ql (l + 32) >>> 4) ||| (((qh >>> 6) &&& 3) <<< 4)) - 32
        d * ((toSigned 1 (src.getD (192 + 8 * h + is + 2 * k) 0) : Int) : ℚ) * (q : ℚ))))

/-- `getDequantFunc` returns the dequantization function for the given
tensor type, or an error if the type is unsupported or not quantized.  The
if-chain mirrors the Go switch, case by case, in source order. -/
def getDequantFunc (t : Nat) : Except String (List Nat → List ℚ) :=
  if t = TensorTypeQ8_0 then .ok dequantQ8_0
  else if t = TensorTypeQ4_0 then .ok dequantQ4_0
  else if t = TensorTypeQ4_1 then .ok dequantQ4_1
  else if t = TensorTypeQ5_0 then .ok dequantQ5_0
  else if t = TensorTypeQ5_1 then .ok dequantQ5_1
  else if t = TensorTypeQ2_K then .ok dequantQ2_K
  else if t = TensorTypeQ3_K then .ok dequantQ3_K
  else if t = TensorTypeQ4_K then .ok dequantQ4_K
  else if t = TensorTypeQ5_K then .ok dequantQ5_K
  else if t = TensorTypeQ6_K then .ok dequantQ6_K
  else .error "unsupported quantization type"

end Gguf

namespace St

/-! ### Safetensors model and reader (package `safetensor`)

Tensor and file names are Lean `String`s.  A mapped file is a list of
bytes; `mmap.ReaderAt.ReadAt` into a buffer of `p` bytes returns `io.EOF`
when the read extends past the end of the mapping. -/

/-- `TensorMetadata` for one tensor of a safetensors header.  Offsets are
nonnegative in every well-formed header and are modelled as `Nat`. -/
structure TensorMetadata where
  dtype : String
  shape : List Nat
  off0 : Nat
  off1 : Nat
deriving DecidableEq

/-- `NumElements` of a safetensors `TensorMetadata`: 1 for a scalar (empty
shape), otherwise the product of the dims. -/
def TensorMetadata.NumElements (tm : TensorMetadata) : Nat :=
  if tm.shape = [] then 1
  else tm.shape.foldl (fun p d => p * d) 1

/-- The engine dtypes reachable from a safetensors header (GoMLX dtypes). -/
inductive DType where
  | float64 | float32 | float16 | bfloat16
  | int8 | int16 | int32 | int64
  | uint8 | uint16 | uint32 | uint64
  | boolType
deriving DecidableEq

/-- Element size in bytes of an engine dtype. -/
def DType.size : DType → Nat
  | .float64 => 8
  | .float32 => 4
  | .float16 => 2
  | .bfloat16 => 2
  | .int8 => 1
  | .int16 => 2
  | .int32 => 4
  | .int64 => 8
  | .uint8 => 1
  | .uint16 => 2
  | .uint32 => 4
  | .uint64 => 8
  | .boolType => 1

/-- Modelled from the spec: the external `dtypes.MapOfNames` lookup of the
GoMLX tensor runtime, keyed by lower-cased dtype name.  The spec gives the
dtype table `F64/F32/F16/BF16/I8..I64/U8..U64/BOOL`; `dtypeToGoMLX` lowers
the header string and looks it up, failing on unknown names. -/
def mapOfNames : List (String × DType) :=
  [("f64", .float64), ("f32", .float32), ("f16", .float16), ("bf16", .bfloat16),
   ("i8", .int8), ("i16", .int16), ("i32", .int32), ("i64", .int64),
   ("u8", .uint8), ("u16", .uint16), ("u32", .uint32), ("u64", .uint64),
   ("bool", .boolType)]

/-- ASCII lower-casing of one character (`strings.ToLower` restricted to
the ASCII dtype names that safetensors headers use). -/
def lowerChar (c : Char) : Char :=
  if 65 ≤ c.toNat ∧ c.toNat ≤ 90 then Char.ofNat (c.toNat + 32) else c

/-- `strings.ToLower` on a header dtype string. -/
def lowerStr (s : String) : String := ⟨s.data.map lowerChar⟩

def dtypeToGoMLX (stDtype : String) : Except String DType :=
  match (mapOfNames.find? (fun p => p.1 == lowerStr stDtype)).map (fun p => p.2) with
  | none => .error "dtype not supported"
  | some d => .ok d

/-- `shapes.Make(dtype, dims...).Size()`: the number of elements of a shape
(empty product is 1, matching a scalar shape). -/
def shapeSize (shape : List Nat) : Nat := shape.foldl (fun p d => p * d) 1

/-- `mmap.ReaderAt.ReadAt` into a buffer of `p` bytes at offset `off`:
returns the bytes when the read fits, io.EOF otherwise. -/
def readAt (file : List Nat) (p : Nat) (off : Nat) : Except String (List Nat) :=
  if off + p ≤ file.length then .ok ((file.drop off).take p) else .error "EOF"

/-- Association-list lookup standing in for Go map access. -/
def assoc {α : Type} (l : List (String × α)) (k : String) : Option α :=
  (l.find? (fun p => p.1 == k)).map (fun p => p.2)

/-- The body of `MMapReader.ReadTensor` once the metadata is in hand: build
the tensor from dtype and shape (its buffer has `Size() * dtype.Size()`
bytes), run the mutable-bytes length check against `Size() * dtype.Size()`
(the two sides are the same expression, so the check cannot fire), and
`ReadAt` that many bytes at `dataOffset + DataOffsets[0]`.  `io.EOF` is
left in `readErr` and is returned like any other error.  The declared span
`DataOffsets[1] - DataOffsets[0]` is never consulted. -/
def readTensorMeta (meta : TensorMetadata) (dataOffset : Nat) (file : List Nat) :
    Except String (List Nat) :=
  match dtypeToGoMLX meta.dtype with
  | .error e => .error e
  | .ok dtype =>
    let bufLen := shapeSize meta.shape * dtype.size
    let expectedBytes := shapeSize meta.shape * dtype.size
    if bufLen ≠ expectedBytes then .error "tensor shape size mismatch"
    else readAt file bufLen (dataOffset + meta.off0)

/-- `MMapReader.ReadTensor`: look the tensor up in the header, then read. -/
def ReadTensor (header : List (String × TensorMetadata)) (dataOffset : Nat)
    (file : List Nat) (tensorName : String) : Except String (List Nat) :=
  match assoc header tensorName with
  | none => .error "tensor not found"
  | some meta => readTensorMeta meta dataOffset file

/-! ### `IterTensors` (file `safetensor.go`)

`IterTensors` is modelled as the trace of externally visible events it
produces: mmap opens and closes, tensor yields, and an error yield.  The
shard iteration order of the Go `range` over the grouping map is
nondeterministic, so the order is a parameter (`shardOrder`); per-tensor
read outcomes are a boolean parameter (`readOk`). -/

inductive Event where
  | openEv (f : String)
  | yieldEv (n : String)
  | closeEv (f : String)
  | errEv
deriving DecidableEq

/-- `sortTensorsByOffset`, pair-collection phase: keep the names found in
the header, paired with `DataOffsets[0]`; names missing from the header are
silently dropped. -/
def offsetPairs (tensorNames : List String) (header : List (String × TensorMetadata)) :
    List (String × Nat) :=
  tensorNames.filterMap (fun n => (assoc header n).map (fun m => (n, m.off0)))

/-- The sorting phase of `sortTensorsByOffset` (`slices.SortFunc` with the
ascending-offset comparator).  `slices.SortFunc` is an
unspecified-tie-order comparison sort; insertion sort realizes one
admissible execution of it. -/
def sortPairs (tensorNames : List String) (header : List (String × TensorMetadata)) :
    List (String × Nat) :=
  List.insertionSort (fun a b : String × Nat => a.2 ≤ b.2) (offsetPairs tensorNames header)

/-- `sortTensorsByOffset`: sort the pairs by offset ascending and return
the names. -/
def sortTensorsByOffset (tensorNames : List String) (header : List (String × TensorMetadata)) :
    List String :=
  (sortPairs tensorNames header).map (fun p => p.1)

/-- The grouping pass of `IterTensors`: the tensor names mapped to shard
`f` by the weight map, in weight-map order. -/
def shardNames (wm : List (String × String)) (f : String) : List String :=
  (wm.filter (fun p => p.2 == f)).map (fun p => p.1)

/-- The per-shard read loop of `IterTensors`: yield each tensor in sorted
order; on a read failure close the mmap, yield the error and signal abort.
On success the mmap is closed after the last yield. -/
def readShardEvents (readOk : String → String → Bool) (f : String) :
    List String → List Event × Bool
  | [] => ([.closeEv f], false)
  | n :: ns =>
    if readOk f n then
      let r := readShardEvents readOk f ns
      (.yieldEv n :: r.1, r.2)
    else ([.closeEv f, .errEv], true)

/-- The shard loop of `IterTensors`: for each shard open the mmap once,
read that shard's tensors in `sortTensorsByOffset` order, and stop early if
a read aborted. -/
def iterGo (wm : List (String × String)) (headers : String → List (String × TensorMetadata))
    (readOk : String → String → Bool) : List String → List Event
  | [] => []
  | f :: rest =>
    let sorted := sortTensorsByOffset (shardNames wm f) (headers f)
    let r := readShardEvents readOk f sorted
    .openEv f :: r.1 ++ (if r.2 then [] else iterGo wm headers readOk rest)

/-- `Model.IterTensors` as an event trace, for a loaded model with weight
map `wm`, per-shard headers `headers`, shard iteration order `shardOrder`
and read outcomes `readOk`. -/
def IterTensors (wm : List (String × String)) (headers : String → List (String × TensorMetadata))
    (readOk : String → String → Bool) (shardOrder : List String) : List Event :=
  iterGo wm headers readOk shardOrder

end St

namespace Hftok

/-! ### HuggingFace tokenizer pipeline (package `hftokenizer`)

Go strings are modelled as lists of runes (code points).  Byte positions —
which is what `for i, r := range text` iterates over and what the offset
arrays are indexed by — are recovered with an explicit UTF-8 byte-length
function.  The tokenizer configuration embedded here is one with no
normalizer (the `nil` branch of `normalizeWithSpans`, which produces the
identity offsets array), a `Whitespace` or `ByteLevel` pre-tokenizer, and a
`WordPiece` or `BPE` model. -/

abbrev Rune := Nat

/-- UTF-8 encoding of a code point (Go `[]byte(string(r))`). -/
def utf8Bytes (r : Rune) : List Nat :=
  if r < 128 then [r]
  else if r < 2048 then [192 + r / 64, 128 + r % 64]
  else if r < 65536 then [224 + r / 4096, 128 + (r / 64) % 64, 128 + r % 64]
  else [240 + r / 262144, 128 + (r / 4096) % 64, 128 + (r / 64) % 64, 128 + r % 64]

/-- UTF-8 byte length of a code point (Go `len(string(r))`). -/
def utf8Len (r : Rune) : Nat :=
  if r < 128 then 1 else if r < 2048 then 2 else if r < 65536 then 3 else 4

/-- Byte length of a string (Go `len(text)` on a string of these runes). -/
def strBytes (s : List Rune) : Nat := (s.map utf8Len).sum

/-- The identity offsets array built by `normalizeWithSpans` when the
tokenizer has no normalizer: `make([]int, len(text))` then
`for i := range text { offsets[i] = i }`.  The `range` loop only visits
rune-start byte indices, so non-start bytes of multi-byte runes keep the
zero the array was allocated with. -/
def identityOffsetsGo : List Rune → Nat → List Nat
  | [], _ => []
  | r :: rs, p => (p :: List.replicate (utf8Len r - 1) 0) ++ identityOffsetsGo rs (p + utf8Len r)

def identityOffsets (text : List Rune) : List Nat := identityOffsetsGo text 0

/-- `unicode.IsSpace` (the Unicode White_Space property). -/
def isSpace (r : Rune) : Bool :=
  decide (r = 9 ∨ r = 10 ∨ r = 11 ∨ r = 12 ∨ r = 13 ∨ r = 32 ∨ r = 133 ∨ r = 160 ∨
    r = 0x1680 ∨ (0x2000 ≤ r ∧ r ≤ 0x200A) ∨ r = 0x2028 ∨ r = 0x2029 ∨ r = 0x202F ∨
    r = 0x205F ∨ r = 0x3000)

/-! #### The process-wide byte-level alphabet (the package `init` function) -/

/-- Whether byte `b` is in `['!'..='~'] ∪ [0xA1..=0xAC] ∪ [0xAE..=0xFF]`,
the self-mapped ranges of the GPT-2 byte-level alphabet. -/
def byteSelf (b : Nat) : Bool :=
  decide ((33 ≤ b ∧ b ≤ 126) ∨ (161 ≤ b ∧ b ≤ 172) ∨ (174 ≤ b ∧ b ≤ 255))

/-- The `init` loop over `b = 0..255` carrying the counter `n`: self-mapped
bytes map to themselves; the others map to `256 + n` with `n` incremented. -/
def byteUnicodePairsGo : Nat → Nat → Nat → List (Nat × Nat)
  | 0, _, _ => []
  | rem + 1, b, n =>
    if byteSelf b then (b, b) :: byteUnicodePairsGo rem (b + 1) n
    else (b, 256 + n) :: byteUnicodePairsGo rem (b + 1) (n + 1)

/-- The byte-to-unicode table built once at init. -/
def byteUnicodePairs : List (Nat × Nat) := byteUnicodePairsGo 256 0 0

/-- `byteToUnicode[b]` (total on bytes: every `b < 256` has an entry). -/
def byteToUnicode (b : Nat) : Rune :=
  ((byteUnicodePairs.find? (fun p => p.1 == b)).map (fun p => p.2)).getD 0

/-- `unicodeToByte[r]`, the inverse table (a Go map lookup with `ok`). -/
def unicodeToByte (r : Rune) : Option Nat :=
  (byteUnicodePairs.find? (fun p => p.2 == r)).map (fun p => p.1)

/-- `byteLevelDecode`: map each code point back through the inverse table,
falling back to the rune's own UTF-8 bytes when it has no entry. -/
def byteLevelDecode (text : List Rune) : List Nat :=
  text.flatMap (fun r =>
    match unicodeToByte r with
    | some b => [b]
    | none => utf8Bytes r)

/-! #### Pre-tokenization with spans -/

/-- `api.TokenSpan`: a byte span over the original input (Go field `End`
is a Lean keyword, hence `endPos`). -/
structure TokenSpan where
  start : Nat
  endPos : Nat
deriving DecidableEq

/-- `wordWithOffset`: a word segment with its span in original bytes. -/
structure WordWithOffset where
  text : List Rune
  start : Nat
  endPos : Nat
deriving DecidableEq

/-- Vocab lookup (`t.tokenizer.Model.Vocab[substr]` with `ok`). -/
def vocabLookup (vocab : List (List Rune × Int)) (k : List Rune) : Option Int :=
  (vocab.find? (fun p => p.1 == k)).map (fun p => p.2)

/-- The loop of `fieldsWithOffsets`: split on Unicode whitespace, carrying
the current run, its start byte (Go's `-1` sentinel is `none`), and the
byte index `i` of the rune being visited. -/
def fieldsGo (text : List Rune) (normOffsets : List Nat) :
    List Rune → Nat → List Rune → Option Nat → List WordWithOffset
  | [], _, current, currentStart =>
    if current.isEmpty then []
    else
      let origStart :=
        match currentStart with
        | some c => if c < normOffsets.length then normOffsets.getD c 0 else 0
        | none => 0
      let origEnd :=
        if 0 < normOffsets.length then normOffsets.getD (normOffsets.length - 1) 0 + 1
        else strBytes text
      [⟨current, origStart, origEnd⟩]
  | r :: rest, i, current, currentStart =>
    if isSpace r then
      let flushed :=
        if current.isEmpty then []
        else
          let origStart :=
            match currentStart with
            | some c => if c < normOffsets.length then normOffsets.getD c 0 else 0
            | none => 0
          let origEnd :=
            if i ≤ normOffsets.length ∧ 0 < i then normOffsets.getD (i - 1) 0 + 1
            else strBytes text
          [⟨current, origStart, origEnd⟩]
      flushed ++ fieldsGo text normOffsets rest (i + utf8Len r) [] none
    else
      let currentStart' := if currentStart = none then some i else currentStart
      fieldsGo text normOffsets rest (i + utf8Len r) (current ++ [r]) currentStart'

/-- `fieldsWithOffsets`: whitespace split with offset tracking. -/
def fieldsWithOffsets (text : List Rune) (normOffsets : List Nat) : List WordWithOffset :=
  fieldsGo text normOffsets text 0 [] none

/-- The loop of `byteLevelPreTokenizeWithOffsets`: a run starts at each
ASCII space (the space is carried into the next segment, mapped through
the byte-level alphabet); every byte of every rune is mapped through
`byteToUnicode` and records the originating rune's offset entry. -/
def byteLevelGo (text : List Rune) (normOffsets : List Nat) :
    List Rune → Nat → List Rune → List Nat → List WordWithOffset
  | [], _, current, currentOffsets =>
    if current.isEmpty then []
    else
      let origStart := if 0 < currentOffsets.length then currentOffsets.headD 0 else 0
      let origEnd :=
        if 0 < currentOffsets.length then currentOffsets.getD (currentOffsets.length - 1) 0 + 1
        else strBytes text
      [⟨current, origStart, origEnd⟩]
  | r :: rest, i, current, currentOffsets =>
    if r = 32 then
      let flushed :=
        if current.isEmpty then []
        else
          let origStart := if 0 < currentOffsets.length then currentOffsets.headD 0 else 0
          let origEnd :=
            if 0 < currentOffsets.length then currentOffsets.getD (currentOffsets.length - 1) 0 + 1
            else i
          [⟨current, origStart, origEnd⟩]
      let startOffsets := if i < normOffsets.length then [normOffsets.getD i 0] else []
      flushed ++ byteLevelGo text normOffsets rest (i + utf8Len r) [byteToUnicode 32] startOffsets
    else
      let bs := utf8Bytes r
      let current' := current ++ bs.map byteToUnicode
      let currentOffsets' :=
        currentOffsets ++ (if i < normOffsets.length then bs.map (fun _ => normOffsets.getD i 0) else [])
      byteLevelGo text normOffsets rest (i + utf8Len r) current' currentOffsets'

/-- `byteLevelPreTokenizeWithOffsets`. -/
def byteLevelPreTokenizeWithOffsets (text : List Rune) (normOffsets : List Nat) :
    List WordWithOffset :=
  byteLevelGo text normOffsets text 0 [] []

/-! #### WordPiece with spans -/

/-- The inner scan of `wordPieceTokenizeWithSpans`: starting from
`end = charLen` and decrementing while `start < end`, find the longest
substring (prefixed with the continuing-subword marker when `start > 0`)
present in the vocab.  The countdown argument is the current `end`. -/
def wpSearch (vocab : List (List Rune × Int)) (pfx runes : List Rune) (start : Nat) :
    Nat → Option (Int × Nat)
  | 0 => none
  | e + 1 =>
    if e + 1 ≤ start then none
    else
      let substr := (if 0 < start then pfx else []) ++ (runes.take (e + 1)).drop start
      match vocabLookup vocab substr with
      | some id => some (id, e + 1)
      | none => wpSearch vocab pfx runes start e

/-- The outer greedy loop: repeatedly match from `start`, emitting
`(id, start, end)` triples in rune coordinates; `none` when some position
has no match (the caller then falls back to a single unk).  The fuel is
`charLen + 1`, which always suffices since `start` strictly increases. -/
def wpGo (vocab : List (List Rune × Int)) (pfx runes : List Rune) (charLen : Nat) :
    Nat → Nat → Option (List (Int × Nat × Nat))
  | 0, _ => some []
  | fuel + 1, start =>
    if charLen ≤ start then some []
    else
      match wpSearch vocab pfx runes start charLen with
      | none => none
      | some (id, e) =>
        match wpGo vocab pfx runes charLen fuel e with
        | none => none
        | some rest => some ((id, start, e) :: rest)

/-- `wordPieceTokenizeWithSpans`.  Note the long-word check compares the
byte length of the segment (`len(text)` on a Go string) against
`maxInputCharsPerWord` (0 means the default 100), while the greedy match
below it works on runes. -/
def wordPieceTokenizeWithSpans (vocab : List (List Rune × Int)) (contSubwordMarker : List Rune)
    (maxInputCharsPerWord : Nat) (unkID : Int) (word : WordWithOffset) :
    List Int × List TokenSpan :=
  if word.text.isEmpty then ([], [])
  else
    let maxChars := if maxInputCharsPerWord = 0 then 100 else maxInputCharsPerWord
    if maxChars < strBytes word.text then
      if 0 ≤ unkID then ([unkID], [⟨word.start, word.endPos⟩]) else ([], [])
    else
      let pfx := if contSubwordMarker.isEmpty then [35, 35] else contSubwordMarker
      let runes := word.text
      let charLen := runes.length
      match wpGo vocab pfx runes charLen (charLen + 1) 0 with
      | none => if 0 ≤ unkID then ([unkID], [⟨word.start, word.endPos⟩]) else ([], [])
      | some toks =>
        (toks.map (fun tk => tk.1),
          toks.map (fun tk =>
            (⟨word.start + strBytes (runes.take tk.2.1),
              word.start + strBytes (runes.take tk.2.2)⟩ : TokenSpan)))

/-! #### BPE with spans -/

/-- `symbolWithPos`: a BPE symbol with rune positions within the word. -/
structure SymbolWithPos where
  text : List Rune
  start : Nat
  endPos : Nat
deriving DecidableEq

/-- Merge-rank lookup.  Go builds `mergeRanks` by iterating the merge list
and overwriting, so a duplicated merge string keeps its last index. -/
def mergeRank (merges : List (List Rune)) (key : List Rune) : Option Nat :=
  match merges.reverse.findIdx? (fun m => m == key) with
  | none => none
  | some j => some (merges.length - 1 - j)

/-- Scan all adjacent pairs for the one whose merge has the smallest rank,
tie-broken to the earliest index (strict `<` keeps the first). -/
def findBestPair (merges : List (List Rune)) (symbols : List SymbolWithPos) :
    Option (Nat × Nat) :=
  (List.range (symbols.length - 1)).foldl
    (fun acc i =>
      let pair := (symbols.getD i ⟨[], 0, 0⟩).text ++ [32] ++ (symbols.getD (i + 1) ⟨[], 0, 0⟩).text
      match mergeRank merges pair with
      | none => acc
      | some rank =>
        match acc with
        | none => some (i, rank)
        | some c => if rank < c.2 then some (i, rank) else acc)
    none

/-- `strings.Replace(s, " ", "", 1)`: drop the first ASCII space. -/
def removeFirstSpace : List Rune → List Rune
  | [] => []
  | r :: rest => if r = 32 then rest else r :: removeFirstSpace rest

/-- Replace the pair at `i` with the merged symbol, keeping the combined
span `(symbols[i].start, symbols[i+1].end)`. -/
def applyMerge (symbols : List SymbolWithPos) (i : Nat) (mergedText : List Rune) :
    List SymbolWithPos :=
  symbols.take i ++
    [⟨mergedText, (symbols.getD i ⟨[], 0, 0⟩).start, (symbols.getD (i + 1) ⟨[], 0, 0⟩).endPos⟩] ++
    symbols.drop (i + 2)

/-- The `for len(symbols) > 1` merge loop.  Every merge shortens the list
by one, so fuel equal to the initial length always suffices. -/
def bpeMergeLoop (merges : List (List Rune)) : Nat → List SymbolWithPos → List SymbolWithPos
  | 0, symbols => symbols
  | fuel + 1, symbols =>
    if symbols.length ≤ 1 then symbols
    else
      match findBestPair merges symbols with
      | none => symbols
      | some br =>
        let pair :=
          (symbols.getD br.1 ⟨[], 0, 0⟩).text ++ [32] ++ (symbols.getD (br.1 + 1) ⟨[], 0, 0⟩).text
        bpeMergeLoop merges fuel (applyMerge symbols br.1 (removeFirstSpace pair))

/-- The final symbol-to-id emission: vocab id, else unk when configured,
else skip the symbol (and its offset) entirely. -/
def bpeEmit (vocab : List (List Rune × Int)) (unkID : Int) (word : WordWithOffset)
    (runes : List Rune) : List SymbolWithPos → List Int × List TokenSpan
  | [] => ([], [])
  | sym :: rest =>
    let r := bpeEmit vocab unkID word runes rest
    let idOpt :=
      match vocabLookup vocab sym.text with
      | some id => some id
      | none => if 0 ≤ unkID then some unkID else none
    match idOpt with
    | none => r
    | some id =>
      (id :: r.1,
        (⟨word.start + strBytes (runes.take sym.start),
          word.start + strBytes (runes.take sym.endPos)⟩ : TokenSpan) :: r.2)

/-- `bpeTokenizeWithSpans`. -/
def bpeTokenizeWithSpans (vocab : List (List Rune × Int)) (merges : List (List Rune))
    (endOfWordSuffix : List Rune) (unkID : Int) (word : WordWithOffset) :
    List Int × List TokenSpan :=
  if word.text.isEmpty then ([], [])
  else
    let runes := word.text
    let symbols0 :=
      (List.range runes.length).map (fun i => (⟨[runes.getD i 0], i, i + 1⟩ : SymbolWithPos))
    let symbols1 :=
      if ¬endOfWordSuffix.isEmpty ∧ ¬symbols0.isEmpty then
        symbols0.dropLast ++
          [⟨(symbols0.getLastD ⟨[], 0, 0⟩).text ++ endOfWordSuffix,
            (symbols0.getLastD ⟨[], 0, 0⟩).start, (symbols0.getLastD ⟨[], 0, 0⟩).endPos⟩]
      else symbols0
    let single :=
      if symbols1.length = 1 then vocabLookup vocab (symbols1.getD 0 ⟨[], 0, 0⟩).text else none
    match single with
    | some id => ([id], [⟨word.start, word.endPos⟩])
    | none =>
      let finalSyms := bpeMergeLoop merges symbols1.length symbols1
      bpeEmit vocab unkID word runes finalSyms

/-! #### The staged pipeline -/

/-- The pre-tokenizer configurations embedded here (tags `Whitespace` /
`WhitespaceSplit` and `ByteLevel` of `applyPreTokenizerWithSpans`). -/
inductive PreTok where
  | whitespace
  | byteLevel (addPrefixSpace : Bool)

/-- The sub-word models embedded here (`WordPiece` and `BPE`). -/
inductive HFModel where
  | wordPiece (vocab : List (List Rune × Int)) (contSubwordMarker : List Rune)
      (maxInputCharsPerWord : Nat)
  | bpe (vocab : List (List Rune × Int)) (merges : List (List Rune))
      (endOfWordSuffix : List Rune)

/-- The runtime tokenizer state relevant to encoding: pre-tokenizer, model,
added-token table and the resolved unk id (`-1` when unset). -/
structure Tokenizer where
  preTokenizer : PreTok
  model : HFModel
  addedTokens : List (List Rune × Int)
  unkID : Int

/-- `tokenizeWordWithSpans`: added-token short-circuit then model dispatch. -/
def tokenizeWordWithSpans (t : Tokenizer) (word : WordWithOffset) :
    List Int × List TokenSpan :=
  match vocabLookup t.addedTokens word.text with
  | some id => ([id], [⟨word.start, word.endPos⟩])
  | none =>
    match t.model with
    | .wordPiece vocab pfx mc => wordPieceTokenizeWithSpans vocab pfx mc t.unkID word
    | .bpe vocab merges eows => bpeTokenizeWithSpans vocab merges eows t.unkID word

/-- `preTokenizeWithSpans` / `applyPreTokenizerWithSpans` dispatch.  For
`ByteLevel` with `add_prefix_space`, a space that maps to original
position 0 is prepended when the text does not begin with one. -/
def preTokenizeWithSpans (t : Tokenizer) (text : List Rune) (normOffsets : List Nat) :
    List WordWithOffset :=
  match t.preTokenizer with
  | .whitespace => fieldsWithOffsets text normOffsets
  | .byteLevel aps =>
    if aps ∧ ¬text.isEmpty ∧ text.headD 0 ≠ 32 then
      byteLevelPreTokenizeWithOffsets (32 :: text) (0 :: normOffsets)
    else byteLevelPreTokenizeWithOffsets text normOffsets

/-- `api.EncodingResult`. -/
structure EncodingResult where
  ids : List Int
  spans : List TokenSpan
deriving DecidableEq

/-- `EncodeWithSpans` for a tokenizer with no normalizer: the nil branch of
`normalizeWithSpans` yields the text unchanged with identity offsets, then
pre-tokenization and the per-word model run with span tracking, and the
per-word results are concatenated in order. -/
def EncodeWithSpans (t : Tokenizer) (text : List Rune) : EncodingResult :=
  let normOffsets := identityOffsets text
  let words := preTokenizeWithSpans t text normOffsets
  let r :=
    words.foldl
      (fun acc w =>
        let wr := tokenizeWordWithSpans t w
        (acc.1 ++ wr.1, acc.2 ++ wr.2))
      ([], [])
  ⟨r.1, r.2⟩

/-- `Encode` delegates to `EncodeWithSpans` and drops the spans. -/
def Encode (t : Tokenizer) (text : List Rune) : List Int :=
  (EncodeWithSpans t text).ids

end Hftok

namespace Sp

/-! ### SentencePiece adapter (package `sentencepiece`)

The external SentencePiece processor is a black box that turns text into a
token list; it is a parameter here.  Text and token surface forms are byte
lists (the Go code indexes and compares individual bytes). -/

/-- A token returned by the external processor: id and surface text. -/
structure SPToken where
  id : Int
  text : List Nat
deriving DecidableEq

/-- A byte span, as in the adapter's `api.TokenSpan`. -/
structure SpSpan where
  start : Nat
  endPos : Nat
deriving DecidableEq

/-- `Encode`: map the processor's tokens to their ids. -/
def Encode (tokens : List SPToken) : List Int :=
  tokens.map (fun t => t.id)

/-- The ASCII whitespace set skipped by the adapter. -/
def isWs (b : Nat) : Bool := b == 32 || b == 9 || b == 10 || b == 13

/-- Advance `pos` past ASCII whitespace (`for pos < len && ws { pos++ }`). -/
def skipWs (text : List Nat) (pos : Nat) : Nat :=
  pos + ((text.drop pos).takeWhile isWs).length

/-- `strings.Index`: the first index where `sub` occurs in `s` (0 for the
empty pattern), or `none` for Go's `-1`. -/
def firstIndexOf (s sub : List Nat) : Option Nat :=
  (List.range (s.length + 1)).find? (fun i => (s.drop i).take sub.length == sub)

/-- `findSubstring`: first occurrence of `sub` in `s` at or after `start`. -/
def findSubstring (s sub : List Nat) (start : Nat) : Option Nat :=
  if s.length ≤ start then none
  else
    match firstIndexOf (s.drop start) sub with
    | none => none
    | some idx => some (start + idx)

/-- The per-token body of the `EncodeWithSpans` loop: strip a leading
U+2581 (bytes `E2 96 81`), skip whitespace when it was present, locate the
piece in the original text, and produce the span and the updated cursor. -/
def spanFor (text : List Nat) (pos : Nat) (tok : SPToken) : SpSpan × Nat :=
  let piece := tok.text
  let hasLeadingSpace :=
    decide (3 ≤ piece.length) && piece.getD 0 0 == 226 && piece.getD 1 0 == 150 &&
      piece.getD 2 0 == 129
  let matchPiece := if hasLeadingSpace then piece.drop 3 else piece
  let pos1 := if hasLeadingSpace then skipWs text pos else pos
  if matchPiece.isEmpty then
    if hasLeadingSpace && decide (0 < pos1) then (⟨pos1 - 1, pos1⟩, pos1)
    else (⟨pos1, pos1⟩, pos1)
  else
    match findSubstring text matchPiece pos1 with
    | some foundAt => (⟨foundAt, foundAt + matchPiece.length⟩, foundAt + matchPiece.length)
    | none =>
      let pos2 := min (pos1 + matchPiece.length) text.length
      (⟨pos1, pos2⟩, pos2)

/-- The token loop of `EncodeWithSpans`, threading the cursor. -/
def spLoop (text : List Nat) (pos : Nat) : List SPToken → List (Int × SpSpan)
  | [] => []
  | tok :: rest =>
    (tok.id, (spanFor text pos tok).1) :: spLoop text (spanFor text pos tok).2 rest

/-- The adapter's encoding result. -/
structure SpEncodingResult where
  ids : List Int
  spans : List SpSpan
deriving DecidableEq

/-- `EncodeWithSpans`: ids with best-effort reconstructed spans. -/
def EncodeWithSpans (text : List Nat) (tokens : List SPToken) : SpEncodingResult :=
  ⟨(spLoop text 0 tokens).map (fun p => p.1), (spLoop text 0 tokens).map (fun p => p.2)⟩

end Sp

/-! ## Supporting lemmas: the GGUF wire format inverts its encoders -/

theorem leBytes_length (k : Nat) : ∀ v : Nat, (Gguf.leBytes k v).length = k := by
  induction k with
  | zero => intro v; rfl
  | succ k ih => intro v; simp [Gguf.leBytes, ih]

theorem leNat_leBytes : ∀ (k v : Nat), v < 2 ^ (8 * k) → Gguf.leNat (Gguf.leBytes k v) = v := by
  intro k
  induction k with
  | zero =>
    intro v h
    simp [Gguf.leBytes, Gguf.leNat]
    omega
  | succ k ih =>
    intro v h
    have hd : v / 256 < 2 ^ (8 * k) := by
      rw [Nat.div_lt_iff_lt_mul (by norm_num)]
      calc v < 2 ^ (8 * (k + 1)) := h
        _ = 2 ^ (8 * k) * 256 := by ring
    simp [Gguf.leBytes, Gguf.leNat, ih (v / 256) hd]
    omega

theorem takeBytes_of_length (n : Nat) (l rest : List Nat) (h : l.length = n) :
    Gguf.takeBytes n (l ++ rest) = some (l, rest) := by
  subst h
  simp [Gguf.takeBytes, List.take_left' rfl, List.drop_left' rfl]

theorem readUintN_leBytes (w v : Nat) (rest : List Nat) (h : v < 2 ^ (8 * w)) :
    Gguf.readUintN w (Gguf.leBytes w v ++ rest) = some (v, rest) := by
  rw [Gguf.readUintN, takeBytes_of_length w (Gguf.leBytes w v) rest (leBytes_length w v)]
  simp [leNat_leBytes w v h]

theorem readString_encode (name rest : List Nat) (h : name.length ≤ 2 ^ 20) :
    Gguf.readString (Gguf.leBytes 8 name.length ++ (name ++ rest)) = .ok (name, rest) := by
  rw [Gguf.readString,
    readUintN_leBytes 8 name.length (name ++ rest) (lt_of_le_of_lt h (by norm_num))]
  simp only [takeBytes_of_length name.length name rest rfl]
  rw [if_neg (by omega)]

theorem readDims_encode :
    ∀ (dims rest : List Nat), (∀ d ∈ dims, d < 2 ^ 64) →
      Gguf.readDims dims.length (dims.flatMap (Gguf.leBytes 8) ++ rest) = .ok (dims, rest) := by
  intro dims
  induction dims with
  | nil => intro rest _; rfl
  | cons d ds ih =>
    intro rest h
    have hd : d < 2 ^ 64 := h d (by simp)
    have hds : ∀ x ∈ ds, x < 2 ^ 64 := fun x hx => h x (by simp [hx])
    simp only [List.flatMap_cons, List.length_cons, List.append_assoc]
    rw [Gguf.readDims, readUintN_leBytes 8 d _ (by exact_mod_cast hd)]
    simp [ih rest hds]

theorem readTensorInfo_encode (name dims : List Nat) (ttype offset : Nat) (rest : List Nat)
    (h1 : name.length ≤ 2 ^ 20) (h2 : ∀ d ∈ dims, d < 2 ^ 64) (h3 : dims.length < 2 ^ 32)
    (h4 : ttype < 2 ^ 32) (h5 : offset < 2 ^ 64) :
    Gguf.readTensorInfo (Gguf.encodeTensorInfo name dims ttype offset ++ rest) =
      .ok (⟨name, dims, ttype, offset⟩, rest) := by
  rw [Gguf.encodeTensorInfo, Gguf.readTensorInfo]
  simp only [List.append_assoc]
  rw [readString_encode name _ h1]
  simp only
  rw [readUintN_leBytes 4 dims.length _ h3]
  simp only
  rw [readDims_encode dims _ h2]
  simp only
  rw [readUintN_leBytes 4 ttype _ h4]
  simp only
  rw [readUintN_leBytes 8 offset rest h5]

theorem isOk_ok {ε α : Type} (a : α) : (Except.ok a : Except ε α).isOk = true := rfl

theorem isOk_error {ε α : Type} (e : ε) : (Except.error e : Except ε α).isOk = false := rfl

/-- A concrete GGUF key-value record whose value is an array of arrays:
key "k" (length 1), value type tag 9 (array), element type tag 9 (array),
element count 0. -/
def nestedArrayKV : List Nat :=
  Gguf.leBytes 8 1 ++ [107] ++ Gguf.leBytes 4 Gguf.valueTypeArray ++
    Gguf.leBytes 4 Gguf.valueTypeArray ++ Gguf.leBytes 8 0

/-- C4 counterexample: parsing a key-value pair whose value is a nested
array (array of arrays) does not succeed — `readArray` has no case for the
array element type, so the parse fails, contradicting the claim that such
a value parses by recursion. -/
theorem readKeyValue_nested_array_fails :
    (Gguf.readKeyValue nestedArrayKV).isOk = false := by decide

/-- C4 (amended): `readValue` delegates an array-tagged value to
`readArray`, and `readArray` rejects every array whose element type is
itself `array` with an unsupported-element-type error, for every count and
every remaining stream: nested arrays never parse. -/
theorem readArray_rejects_nested_arrays :
    (∀ s : List Nat, Gguf.readValue Gguf.valueTypeArray s = Gguf.readArray s) ∧
    (∀ (count : Nat) (rest : List Nat), count < 2 ^ 64 →
      Gguf.readArray
          (Gguf.leBytes 4 Gguf.valueTypeArray ++ (Gguf.leBytes 8 count ++ rest)) =
        .error "unsupported array element type") := by
  constructor
  · intro s; rfl
  · intro count rest h
    rw [Gguf.readArray, readUintN_leBytes 4 Gguf.valueTypeArray _ (by decide)]
    simp only
    rw [readUintN_leBytes 8 count rest h]
    rfl

/-- Witness for the amended C4 theorem at a concrete count and stream. -/
theorem readArray_rejects_nested_arrays_witness :
    Gguf.readArray (Gguf.leBytes 4 Gguf.valueTypeArray ++ (Gguf.leBytes 8 3 ++ [0, 0])) =
      .error "unsupported array element type" :=
  readArray_rejects_nested_arrays.2 3 [0, 0] (by norm_num)

/-- C5: a GGUF tensor-info entry parses successfully for every tensor-type
tag (unknown tensor types are accepted at parse time: the wire encoding of
any info record, with any `ttype`, reads back exactly), while
`getDequantFunc` succeeds exactly on the supported quantized set
Q4_0, Q4_1, Q5_0, Q5_1, Q8_0, Q2_K, Q3_K, Q4_K, Q5_K, Q6_K and fails on
every other type, so an unreadable quant only fails when read. -/
theorem readTensorInfo_accepts_any_type_getDequantFunc_supported :
    (∀ (name dims : List Nat) (ttype offset : Nat) (rest : List Nat),
      name.length ≤ 2 ^ 20 → (∀ d ∈ dims, d < 2 ^ 64) → dims.length < 2 ^ 32 →
      ttype < 2 ^ 32 → offset < 2 ^ 64 →
      Gguf.readTensorInfo (Gguf.encodeTensorInfo name dims ttype offset ++ rest) =
        .ok (⟨name, dims, ttype, offset⟩, rest)) ∧
    (∀ t : Nat, (Gguf.getDequantFunc t).isOk = true ↔
      t ∈ [Gguf.TensorTypeQ4_0, Gguf.TensorTypeQ4_1, Gguf.TensorTypeQ5_0, Gguf.TensorTypeQ5_1,
        Gguf.TensorTypeQ8_0, Gguf.TensorTypeQ2_K, Gguf.TensorTypeQ3_K, Gguf.TensorTypeQ4_K,
        Gguf.TensorTypeQ5_K, Gguf.TensorTypeQ6_K]) := by
  constructor
  · exact readTensorInfo_encode
  · intro t
    rw [Gguf.getDequantFunc]
    split_ifs with h1 h2 h3 h4 h5 h6 h7 h8 h9 h10 <;>
      simp_all [Gguf.TensorTypeQ4_0, Gguf.TensorTypeQ4_1, Gguf.TensorTypeQ5_0,
        Gguf.TensorTypeQ5_1, Gguf.TensorTypeQ8_0, Gguf.TensorTypeQ2_K, Gguf.TensorTypeQ3_K,
        Gguf.TensorTypeQ4_K, Gguf.TensorTypeQ5_K, Gguf.TensorTypeQ6_K, isOk_ok, isOk_error]

/-- Witness for C5: a tensor info with the unknown tensor-type tag 999
parses back exactly, and `getDequantFunc` rejects that same tag. -/
theorem readTensorInfo_accepts_any_type_getDequantFunc_supported_witness :
    Gguf.readTensorInfo (Gguf.encodeTensorInfo [116] [3] 999 0 ++ []) =
        .ok (⟨[116], [3], 999, 0⟩, []) ∧
      ¬(Gguf.getDequantFunc 999).isOk = true := by
  constructor
  · exact readTensorInfo_accepts_any_type_getDequantFunc_supported.1 [116] [3] 999 0 []
      (by norm_num) (by simp) (by norm_num) (by norm_num) (by norm_num)
  · intro hc
    have h := (readTensorInfo_accepts_any_type_getDequantFunc_supported.2 999).mp hc
    simp [Gguf.TensorTypeQ4_0, Gguf.TensorTypeQ4_1, Gguf.TensorTypeQ5_0,
      Gguf.TensorTypeQ5_1, Gguf.TensorTypeQ8_0, Gguf.TensorTypeQ2_K, Gguf.TensorTypeQ3_K,
      Gguf.TensorTypeQ4_K, Gguf.TensorTypeQ5_K, Gguf.TensorTypeQ6_K] at h

/-! ## Q4_0 dequantization (claim C7) -/

/-- The S5 test block: f16(0.5) = bits 0x3800 stored little-endian, one
byte 0x80, fifteen zero bytes. -/
def q4TestBlock : List Nat := [0x00, 0x38, 0x80] ++ List.replicate 15 0

/-- C7: a Q4_0 block dequantizes to exactly 32 values, with
`dst[j] = (low_nibble - 8) * scale` and `dst[j+16] = (high_nibble - 8) * scale`
for `j ∈ [0,16)`, the scale being the converted IEEE-754 half read
little-endian from the first two bytes; on the concrete S5 block the scale
is 1/2 and `dst[0] = -4`, `dst[16] = 0`. -/
theorem dequantQ4_0_spec :
    (∀ src : List Nat,
      (Gguf.dequantQ4_0 src).length = 32 ∧
        ∀ j : Fin 16,
          (Gguf.dequantQ4_0 src).getD j.val 0 =
              (((src.getD (2 + j.val) 0 &&& 15 : Nat) : Int) - 8 : Int) *
                Gguf.f16val (src.getD 0 0 + 256 * src.getD 1 0) ∧
            (Gguf.dequantQ4_0 src).getD (16 + j.val) 0 =
              (((src.getD (2 + j.val) 0 >>> 4 : Nat) : Int) - 8 : Int) *
                Gguf.f16val (src.getD 0 0 + 256 * src.getD 1 0)) ∧
      Gguf.f16val (q4TestBlock.getD 0 0 + 256 * q4TestBlock.getD 1 0) = 1 / 2 ∧
      (Gguf.dequantQ4_0 q4TestBlock).getD 0 0 = -4 ∧
      (Gguf.dequantQ4_0 q4TestBlock).getD 16 0 = 0 := by
  have hbits : q4TestBlock.getD 0 0 + 256 * q4TestBlock.getD 1 0 = 14336 := by decide
  have hf32 : Gguf.float16ToFloat32 14336 = 1056964608 := by decide
  have hval : Gguf.f16val 14336 = 1 / 2 := by
    rw [Gguf.f16val, hf32]
    have hs : (1056964608 : Nat) >>> 31 &&& 1 = 0 := by decide
    have he : (1056964608 : Nat) >>> 23 &&& 255 = 126 := by decide
    have hm : (1056964608 : Nat) &&& 8388607 = 0 := by decide
    simp only [Gguf.f32BitsToRat, hs, he, hm]
    norm_num
  refine ⟨?_, by rw [hbits]; exact hval, ?_, ?_⟩
  · intro src
    refine ⟨by simp [Gguf.dequantQ4_0], ?_⟩
    intro j
    fin_cases j <;> exact ⟨rfl, rfl⟩
  · have h0 : (Gguf.dequantQ4_0 q4TestBlock).getD 0 0 =
        (((q4TestBlock.getD 2 0 &&& 15 : Nat) : Int) - 8 : Int) *
          Gguf.f16val (q4TestBlock.getD 0 0 + 256 * q4TestBlock.getD 1 0) := rfl
    rw [h0, hbits, hval]
    have hn : (q4TestBlock.getD 2 0 &&& 15 : Nat) = 0 := by decide
    rw [hn]
    norm_num
  · have h16 : (Gguf.dequantQ4_0 q4TestBlock).getD 16 0 =
        (((q4TestBlock.getD 2 0 >>> 4 : Nat) : Int) - 8 : Int) *
          Gguf.f16val (q4TestBlock.getD 0 0 + 256 * q4TestBlock.getD 1 0) := rfl
    rw [h16, hbits, hval]
    have hn : (q4TestBlock.getD 2 0 >>> 4 : Nat) = 8 := by decide
    rw [hn]
    norm_num

/-! ## Element count of a 0-dim shape (claim C8) -/

/-- C8 counterexample: the GGUF `TensorInfo.NumElements` of a tensor whose
shape is the empty sequence is 0, not the claimed 1. -/
theorem gguf_numElements_empty_shape_is_zero :
    Gguf.GTensorInfo.NumElements ⟨[116], [], 2, 0⟩ = 0 ∧ (0 : Nat) ≠ 1 := by decide

/-- C8 (amended): the safetensors `TensorMetadata.NumElements` returns 1
on a 0-dimensional shape, but the GGUF `TensorInfo.NumElements` returns 0
on a 0-dimensional shape. -/
theorem numElements_empty_shape :
    (∀ tm : St.TensorMetadata, tm.shape = [] → tm.NumElements = 1) ∧
    (∀ ti : Gguf.GTensorInfo, ti.shape = [] → ti.NumElements = 0) := by
  constructor
  · intro tm h
    rw [St.TensorMetadata.NumElements, if_pos h]
  · intro ti h
    rw [Gguf.GTensorInfo.NumElements, if_pos h]

/-- Witness for the amended C8 theorem at concrete records. -/
theorem numElements_empty_shape_witness :
    St.TensorMetadata.NumElements ⟨"F32", [], 0, 4⟩ = 1 ∧
      Gguf.GTensorInfo.NumElements ⟨[116], [], 2, 0⟩ = 0 :=
  ⟨numElements_empty_shape.1 ⟨"F32", [], 0, 4⟩ rfl, numElements_empty_shape.2 ⟨[116], [], 2, 0⟩ rfl⟩

/-! ## Safetensors `ReadTensor` (claim C2) -/

deriving instance DecidableEq for Except

/-- A header declaring tensor "t" as F32 of shape [2] — 8 bytes of data —
but with a `data_offsets` span of only 4 bytes. -/
def c2Header : List (String × St.TensorMetadata) := [("t", ⟨"F32", [2], 0, 4⟩)]

/-- A 16-byte mapped file. -/
def c2File : List Nat := List.replicate 16 7

/-- C2 counterexample: on a tensor whose dtype×shape byte count (8) does
not match its `data_offsets` span (4), `ReadTensor` succeeds — it returns
8 bytes and no SizeMismatch error — so the claimed
verify-buffer-against-span / fail-on-mismatch behavior does not hold. -/
theorem readTensor_span_mismatch_not_detected :
    St.ReadTensor c2Header 0 c2File "t" = .ok (List.replicate 8 7) ∧
      St.shapeSize [2] * St.DType.size .float32 ≠ 4 - 0 := by decide

/-- C2 (amended): `ReadTensor` checks the destination buffer length
against `product(shape) * dtype.size` — a check that holds by construction
of the tensor — and copies exactly `product(shape) * dtype.size` bytes
starting at `data_offset + data_offsets[0]`, succeeding whenever that many
bytes are available in the file; `data_offsets[1]` is never consulted (the
read result is invariant under changing it), and no size check against the
`data_offsets` span is performed. -/
theorem readTensor_copies_shape_bytes :
    (∀ (header : List (String × St.TensorMetadata)) (dataOffset : Nat) (file : List Nat)
      (name : String) (meta : St.TensorMetadata) (dt : St.DType),
      St.assoc header name = some meta →
      St.dtypeToGoMLX meta.dtype = .ok dt →
      dataOffset + meta.off0 + St.shapeSize meta.shape * dt.size ≤ file.length →
      St.ReadTensor header dataOffset file name =
        .ok ((file.drop (dataOffset + meta.off0)).take (St.shapeSize meta.shape * dt.size))) ∧
    (∀ (meta : St.TensorMetadata) (x dataOffset : Nat) (file : List Nat),
      St.readTensorMeta { meta with off1 := x } dataOffset file =
        St.readTensorMeta meta dataOffset file) := by
  constructor
  · intro header dataOffset file name meta dt hassoc hdtype hlen
    rw [St.ReadTensor, hassoc]
    simp only
    rw [St.readTensorMeta, hdtype]
    simp only [St.readAt]
    rw [if_neg (fun hc => hc rfl), if_pos hlen]
  · intro meta x dataOffset file
    rfl

/-- Witness for the amended C2 theorem: at the concrete mismatched header
the read succeeds and returns the 8 bytes at the tensor's start offset. -/
theorem readTensor_copies_shape_bytes_witness :
    St.ReadTensor c2Header 0 c2File "t" =
      .ok ((c2File.drop (0 + (0 : Nat))).take (St.shapeSize [2] * St.DType.size .float32)) :=
  readTensor_copies_shape_bytes.1 c2Header 0 c2File "t" ⟨"F32", [2], 0, 4⟩ .float32
    (by decide) (by decide) (by decide)

/-! ## Byte-level alphabet (claim C9) -/

set_option maxRecDepth 80000 in
/-- C9: the process-wide byte-level alphabet is a bijection between the
256 byte values and 256 code points: bytes in the three self ranges map to
themselves; the remaining 68 bytes map, in ascending byte order, to the
consecutive code points 256..323; mapping any byte forward then backward
is the identity; and the forward map is injective. -/
theorem byteLevel_alphabet_bijection :
    (∀ b : Fin 256, Hftok.byteSelf b.val = true → Hftok.byteToUnicode b.val = b.val) ∧
    ((List.range 256).filter (fun b => !Hftok.byteSelf b)).map Hftok.byteToUnicode =
      List.range' 256 68 ∧
    (∀ b : Fin 256, Hftok.unicodeToByte (Hftok.byteToUnicode b.val) = some b.val) ∧
    (∀ b c : Fin 256, Hftok.byteToUnicode b.val = Hftok.byteToUnicode c.val → b = c) := by
  have h3 : ∀ b : Fin 256, Hftok.unicodeToByte (Hftok.byteToUnicode b.val) = some b.val := by
    decide
  refine ⟨by decide, by decide, h3, ?_⟩
  intro b c h
  have hb := h3 b
  rw [h] at hb
  have := hb.symm.trans (h3 c)
  exact Fin.ext (Option.some_injective _ this)

/-- Witness for C9 at concrete bytes: a self-mapped byte and the space
byte, whose image 288 maps back to 32. -/
theorem byteLevel_alphabet_bijection_witness :
    Hftok.byteToUnicode 65 = 65 ∧ Hftok.unicodeToByte (Hftok.byteToUnicode 32) = some 32 :=
  ⟨byteLevel_alphabet_bijection.1 (⟨65, by norm_num⟩ : Fin 256) (by decide),
    byteLevel_alphabet_bijection.2.2.1 (⟨32, by norm_num⟩ : Fin 256)⟩

/-! ## Tokenizer span out of bounds (claim C1) -/

/-- A tokenizer with no normalizer, a ByteLevel pre-tokenizer without
prefix space, and a BPE model whose vocab holds "a" (0), "Ġ" (the mapped
space byte, code point 288) (1) and "b" (2), with no merges. -/
def c1Tokenizer : Hftok.Tokenizer :=
  ⟨.byteLevel false, .bpe [([97], 0), ([288], 1), ([98], 2)] [] [], [], -1⟩

/-- C1: on the input "a b" (3 bytes) the pipeline emits ids [0, 1, 2] with
spans [(0,1), (1,3), (3,4)] — the final span ends at 4, beyond the 3-byte
input, because sub-word span arithmetic adds byte offsets measured in the
byte-level-expanded segment text ("Ġb", 3 bytes) to the segment's original
start.  This violates the claimed bound `b ≤ len(s)` (and the repository's
own `TokenSpan` documentation and tests). -/
theorem encodeWithSpans_span_out_of_bounds :
    Hftok.EncodeWithSpans c1Tokenizer [97, 32, 98] =
        ⟨[0, 1, 2], [⟨0, 1⟩, ⟨1, 3⟩, ⟨3, 4⟩]⟩ ∧
      Hftok.strBytes [97, 32, 98] = 3 := by decide

/-! ## WordPiece long-word cutoff uses bytes, not characters (claim C3) -/

/-- Vocab for the C3 input: "é" (code point 233, 2 UTF-8 bytes) and its
continuation form "##é". -/
def c3Vocab : List (List Hftok.Rune × Int) := [([233], 5), ([35, 35, 233], 6)]

set_option maxRecDepth 80000 in
/-- C3: with the default `max_input_chars_per_word` (100) and unk id 100,
a segment of 51 'é' characters — 51 characters but 102 UTF-8 bytes — is
collapsed to a single unk spanning the whole segment, because the code
compares the segment's byte length against the limit; a segment of 50 'é'
(100 bytes) is greedily decomposed as the claim describes.  The claim's
character count (51 ≤ 100) says the 51-character word should also have
been decomposed. -/
theorem wordPiece_maxChars_uses_byte_length :
    Hftok.wordPieceTokenizeWithSpans c3Vocab [] 0 100 ⟨List.replicate 51 233, 0, 102⟩ =
        ([100], [⟨0, 102⟩]) ∧
      (List.replicate 51 (233 : Hftok.Rune)).length = 51 ∧
      Hftok.strBytes (List.replicate 51 233) = 102 ∧
      (Hftok.wordPieceTokenizeWithSpans c3Vocab [] 0 100 ⟨List.replicate 50 233, 0, 100⟩).1 =
        5 :: List.replicate 49 6 := by decide

/-! ## SentencePiece adapter: spans never change the ids (claim C10) -/

theorem spLoop_ids (text : List Nat) :
    ∀ (tokens : List Sp.SPToken) (pos : Nat),
      (Sp.spLoop text pos tokens).map (fun p => p.1) = tokens.map (fun t => t.id) := by
  intro tokens
  induction tokens with
  | nil => intro pos; rfl
  | cons t rest ih => intro pos; simp [Sp.spLoop, ih]

/-- C10: for every input text and every token sequence the external
processor returns, `EncodeWithSpans(text).IDs` equals `Encode` element for
element — the best-effort span reconstruction threads a cursor but never
adds, drops or reorders ids. -/
theorem sp_encodeWithSpans_ids_eq_encode (text : List Nat) (tokens : List Sp.SPToken) :
    (Sp.EncodeWithSpans text tokens).ids = Sp.Encode tokens := by
  rw [Sp.EncodeWithSpans, Sp.Encode]
  exact spLoop_ids text tokens 0

/-! ## `IterTensors` grouping, ordering and mmap discipline (claim C6) -/

/-- The event segment `IterTensors` produces for one shard when every read
succeeds: open the mmap, yield the shard's tensors in sorted order, close
the mmap — all before the next shard's segment begins. -/
def shardSegment (wm : List (String × String))
    (headers : String → List (String × St.TensorMetadata)) (f : String) : List St.Event :=
  .openEv f ::
    ((St.sortTensorsByOffset (St.shardNames wm f) (headers f)).map .yieldEv ++ [.closeEv f])

theorem readShardEvents_all_ok (readOk : String → String → Bool)
    (h : ∀ f n, readOk f n = true) (f : String) :
    ∀ names : List String,
      St.readShardEvents readOk f names = (names.map .yieldEv ++ [.closeEv f], false) := by
  intro names
  induction names with
  | nil => rfl
  | cons n ns ih => simp [St.readShardEvents, h f n, ih]

theorem iterGo_eq_flatMap (wm : List (String × String))
    (headers : String → List (String × St.TensorMetadata))
    (readOk : String → String → Bool) (h : ∀ f n, readOk f n = true) :
    ∀ order : List String,
      St.iterGo wm headers readOk order = order.flatMap (shardSegment wm headers) := by
  intro order
  induction order with
  | nil => rfl
  | cons f rest ih =>
    simp [St.iterGo, readShardEvents_all_ok readOk h f, ih, shardSegment]

theorem count_openEv_flatMap (wm : List (String × String))
    (headers : String → List (String × St.TensorMetadata)) :
    ∀ (order : List String) (f : String),
      (order.flatMap (shardSegment wm headers)).count (St.Event.openEv f) = order.count f := by
  intro order f
  induction order with
  | nil => rfl
  | cons g rest ih =>
    rw [List.flatMap_cons, List.count_append, ih]
    have h1 : ((St.sortTensorsByOffset (St.shardNames wm g) (headers g)).map
        St.Event.yieldEv).count (St.Event.openEv f) = 0 := by
      apply List.count_eq_zero.mpr
      intro hmem
      simp [List.mem_map] at hmem
    rw [shardSegment, List.count_cons, List.count_append, h1]
    simp [List.count_cons, List.count_nil]
    omega

theorem sortPairs_sorted (names : List String) (header : List (String × St.TensorMetadata)) :
    List.Sorted (fun a b : String × Nat => a.2 ≤ b.2) (St.sortPairs names header) := by
  haveI : IsTotal (String × Nat) (fun a b => a.2 ≤ b.2) := ⟨fun a b => Nat.le_total a.2 b.2⟩
  haveI : IsTrans (String × Nat) (fun a b => a.2 ≤ b.2) := ⟨fun _ _ _ h1 h2 => Nat.le_trans h1 h2⟩
  exact List.sorted_insertionSort _ _

/-- C6: for a loaded model whose shard order covers the weight map without
duplicates, whose index is consistent (every weight-map tensor is present
in its shard's header) and whose reads succeed, `IterTensors` (i) is
exactly the concatenation, shard by shard, of open-yields-close segments —
each shard's mmap is opened exactly once and closed before the next shard
is processed; (ii) yields within a shard in ascending `data_offsets[0]`
order (the sorted pair list is sorted by offset); (iii) opens each shard
exactly once over the whole run; and (iv) yields every tensor of the
weight map. -/
theorem iterTensors_grouped_sorted (wm : List (String × String))
    (headers : String → List (String × St.TensorMetadata))
    (readOk : String → String → Bool) (shardOrder : List String)
    (hcover : ∀ p ∈ wm, p.2 ∈ shardOrder)
    (hnodup : shardOrder.Nodup)
    (hcons : ∀ p ∈ wm, (St.assoc (headers p.2) p.1).isSome = true)
    (hreads : ∀ f n, readOk f n = true) :
    St.IterTensors wm headers readOk shardOrder =
        shardOrder.flatMap (shardSegment wm headers) ∧
      (∀ (names : List String) (header : List (String × St.TensorMetadata)),
        List.Sorted (fun a b : String × Nat => a.2 ≤ b.2) (St.sortPairs names header)) ∧
      (∀ f ∈ shardOrder,
        (St.IterTensors wm headers readOk shardOrder).count (St.Event.openEv f) = 1) ∧
      (∀ p ∈ wm, St.Event.yieldEv p.1 ∈ St.IterTensors wm headers readOk shardOrder) := by
  have htrace : St.IterTensors wm headers readOk shardOrder =
      shardOrder.flatMap (shardSegment wm headers) :=
    iterGo_eq_flatMap wm headers readOk hreads shardOrder
  refine ⟨htrace, fun names header => sortPairs_sorted names header, ?_, ?_⟩
  · intro f hf
    rw [htrace, count_openEv_flatMap wm headers shardOrder f]
    exact List.count_eq_one_of_mem hnodup hf
  · intro p hp
    rw [htrace]
    apply List.mem_flatMap.mpr
    refine ⟨p.2, hcover p hp, ?_⟩
    rw [shardSegment]
    apply List.mem_cons_of_mem
    apply List.mem_append_left
    apply List.mem_map_of_mem
    have hnames : p.1 ∈ St.shardNames wm p.2 := by
      rw [St.shardNames]
      apply List.mem_map_of_mem
      exact List.mem_filter.mpr ⟨hp, by simp⟩
    obtain ⟨m, hm⟩ := Option.isSome_iff_exists.mp (hcons p hp)
    have hpair : (p.1, m.off0) ∈ St.offsetPairs (St.shardNames wm p.2) (headers p.2) :=
      List.mem_filterMap.mpr ⟨p.1, hnames, by rw [hm]; rfl⟩
    have hsp : (p.1, m.off0) ∈ St.sortPairs (St.shardNames wm p.2) (headers p.2) :=
      ((List.perm_insertionSort _ _).mem_iff).mpr hpair
    rw [St.sortTensorsByOffset]
    exact List.mem_map_of_mem (fun q => q.1) hsp

/-- A concrete two-shard model with three tensors per shard. -/
def c6wm : List (String × String) :=
  [("t1", "A"), ("t2", "A"), ("t3", "A"), ("u1", "B"), ("u2", "B"), ("u3", "B")]

def c6hdrA : List (String × St.TensorMetadata) :=
  [("t1", ⟨"F32", [1], 0, 4⟩), ("t2", ⟨"F32", [1], 4, 8⟩), ("t3", ⟨"F32", [1], 8, 12⟩)]

def c6hdrB : List (String × St.TensorMetadata) :=
  [("u1", ⟨"F32", [1], 0, 4⟩), ("u2", ⟨"F32", [1], 4, 8⟩), ("u3", ⟨"F32", [1], 8, 12⟩)]

def c6headers : String → List (String × St.TensorMetadata) :=
  fun f => if f = "A" then c6hdrA else c6hdrB

/-- Witness for C6 at the concrete two-shard model: the trace is the two
open-yields-close segments in shard order and tensor "t2" is yielded. -/
theorem iterTensors_grouped_sorted_witness :
    St.IterTensors c6wm c6headers (fun _ _ => true) ["A", "B"] =
        (["A", "B"] : List String).flatMap (shardSegment c6wm c6headers) ∧
      St.Event.yieldEv "t2" ∈ St.IterTensors c6wm c6headers (fun _ _ => true) ["A", "B"] := by
  have h := iterTensors_grouped_sorted c6wm c6headers (fun _ _ => true) ["A", "B"]
    (by decide) (by decide) (by decide) (fun f n => rfl)
  exact ⟨h.1, h.2.2.2 ("t2", "A") (by decide)⟩
